import Mathlib

/-!
Verification of the Markdown lexer `LexMarkdown.cxx` (function
`ColorizeMarkdownDoc` and its helper predicates) as a shallow embedding.

The lexer itself (`src/scintilla/lexers/LexMarkdown.cxx`) is translated
literally.  The scan cursor (`StyleContext`), the accessor
(`LexAccessor`/`Accessor`) and the style constants (`SciLexer.h`) are not
part of the two source files; they are modelled from the specification's
description of the scan-cursor interface (document reads by absolute and
signed cursor-relative offset with NUL outside the document, line-start
detection across LF / CR / CRLF, span emission on classification change,
and the fixed ordinal order of the classification enumeration).
-/

set_option maxHeartbeats 1000000

/-- Modelled from the spec: the classification enumeration of `SciLexer.h`
(not under `src/`), in the fixed ordinal order the specification states:
`DEFAULT, LINE_BEGIN, STRONG1, STRONG2, STRIKEOUT, CODE, CODE2, CODEBK,
HEADER1..HEADER6, HRULE, BLOCKQUOTE, PRECHAR, LINK`. -/
inductive MDStyle where
  | DEFAULT
  | LINE_BEGIN
  | STRONG1
  | STRONG2
  | STRIKEOUT
  | CODE
  | CODE2
  | CODEBK
  | HEADER1
  | HEADER2
  | HEADER3
  | HEADER4
  | HEADER5
  | HEADER6
  | HRULE
  | BLOCKQUOTE
  | PRECHAR
  | LINK
deriving DecidableEq, Repr

open MDStyle

/-- Modelled from the spec: the ordinal of a classification in the fixed
enumeration order (load-bearing for the style-leak suppression rule). -/
def styleOrd : MDStyle → Nat
  | DEFAULT => 0
  | LINE_BEGIN => 1
  | STRONG1 => 2
  | STRONG2 => 3
  | STRIKEOUT => 4
  | CODE => 5
  | CODE2 => 6
  | CODEBK => 7
  | HEADER1 => 8
  | HEADER2 => 9
  | HEADER3 => 10
  | HEADER4 => 11
  | HEADER5 => 12
  | HEADER6 => 13
  | HRULE => 14
  | BLOCKQUOTE => 15
  | PRECHAR => 16
  | LINK => 17

/-- The backquote character (char code 96). -/
def backquote : Char := Char.ofNat 96

/-- The NUL character returned by the accessor for reads outside the document. -/
def nulChar : Char := Char.ofNat 0

/-- Modelled from the spec: safe document read at a signed absolute offset;
outside the document the accessor returns NUL. -/
def chAt (d : List Char) (i : Int) : Char :=
  if 0 ≤ i ∧ i < d.length then d.getD i.toNat nulChar else nulChar

/-- `IsNewline` from LexMarkdown.cxx. -/
def IsNewline (c : Char) : Bool :=
  c = '\n' || c = '\r'

/-- `IsASpaceOrTab` (CharacterSet.h helper used by LexMarkdown.cxx). -/
def IsASpaceOrTab (c : Char) : Bool :=
  c = ' ' || c = '\t'

/-- C `isspacechar` (space or one of the standard whitespace controls). -/
def isspacechar (c : Char) : Bool :=
  c = ' ' || c = '\t' || c = '\n' || c = '\x0b' || c = '\x0c' || c = '\r'

/-- Modelled from the spec: position `p` is a line start when it is the
document start, follows an LF, or follows a CR that is not the first half
of a CRLF pair. -/
def isLineStart (d : List Char) (p : Nat) : Bool :=
  p = 0 || chAt d ((p : Int) - 1) = '\n' ||
    (chAt d ((p : Int) - 1) = '\r' && chAt d (p : Int) ≠ '\n')

/-- Modelled from the spec: the start offset of the line containing `p`
(the accessor's `LineStart (GetLine p)`). -/
def lineStartAt (d : List Char) : Nat → Nat
  | 0 => 0
  | p + 1 => if isLineStart d (p + 1) then p + 1 else lineStartAt d p

/-- Modelled from the spec: the accessor composite
`LineStart (GetLine startPos - 1)` used by the resume rule — the start of
the physical line before the one containing `p` (0 when `p` is on the
first line, as the accessor returns 0 for a negative line number). -/
def prevLineStart (d : List Char) (p : Nat) : Nat :=
  let ls := lineStartAt d p
  if ls = 0 then 0 else lineStartAt d (ls - 1)

/-- Modelled from the spec: the scan cursor.  `spans` is the emitted style
span stream, `(a, b, st)` meaning positions `a ≤ p < b` carry style `st`;
`startSeg` is the start of the currently open segment. -/
structure StyleContext where
  doc : List Char
  endPos : Nat
  currentPos : Nat
  state : MDStyle
  startSeg : Nat
  spans : List (Nat × Nat × MDStyle)
deriving DecidableEq, Repr

/-- Cursor-relative safe read (`StyleContext::GetRelative`). -/
def StyleContext.GetRelative (sc : StyleContext) (n : Int) : Char :=
  chAt sc.doc ((sc.currentPos : Int) + n)

/-- The current character (`sc.ch`). -/
def StyleContext.ch (sc : StyleContext) : Char :=
  chAt sc.doc (sc.currentPos : Int)

/-- The previous character (`sc.chPrev`, NUL at document start). -/
def StyleContext.chPrev (sc : StyleContext) : Char :=
  chAt sc.doc ((sc.currentPos : Int) - 1)

/-- The next character (`sc.chNext`). -/
def StyleContext.chNext (sc : StyleContext) : Char :=
  chAt sc.doc ((sc.currentPos : Int) + 1)

/-- `sc.atLineStart`. -/
def StyleContext.atLineStart (sc : StyleContext) : Bool :=
  isLineStart sc.doc sc.currentPos

/-- `sc.More()`: scanning continues while the cursor is before the end offset. -/
def StyleContext.More (sc : StyleContext) : Bool :=
  sc.currentPos < sc.endPos

/-- `sc.Forward()`: advance one position, never past the end offset. -/
def StyleContext.Forward (sc : StyleContext) : StyleContext :=
  if sc.currentPos < sc.endPos then { sc with currentPos := sc.currentPos + 1 } else sc

/-- `sc.Forward(n)`: advance `n` positions, clamped at the end offset. -/
def StyleContext.ForwardN (sc : StyleContext) (n : Nat) : StyleContext :=
  { sc with currentPos := min (sc.currentPos + n) sc.endPos }

/-- `sc.SetState(st)`: close the open segment (emitting a span when it is
non-empty) and open a new segment in style `st`. -/
def StyleContext.SetState (sc : StyleContext) (st : MDStyle) : StyleContext :=
  if sc.startSeg < sc.currentPos then
    { sc with spans := sc.spans ++ [(sc.startSeg, sc.currentPos, sc.state)],
              startSeg := sc.currentPos, state := st }
  else
    { sc with startSeg := sc.currentPos, state := st }

/-- `sc.ChangeState(st)`: retag the open segment without closing it. -/
def StyleContext.ChangeState (sc : StyleContext) (st : MDStyle) : StyleContext :=
  { sc with state := st }

/-- `sc.ForwardSetState(st)`: advance one position, then close the segment. -/
def StyleContext.ForwardSetState (sc : StyleContext) (st : MDStyle) : StyleContext :=
  (sc.Forward).SetState st

/-- `sc.Complete()`: emit the final open segment. -/
def StyleContext.Complete (sc : StyleContext) : StyleContext :=
  if sc.startSeg < sc.currentPos then
    { sc with spans := sc.spans ++ [(sc.startSeg, sc.currentPos, sc.state)],
              startSeg := sc.currentPos }
  else sc

/-- `sc.Match(s)`: the document at the cursor begins with `s`
(reads are document-bounded, not end-offset-bounded). -/
def StyleContext.Match (sc : StyleContext) : List Char → Bool :=
  go 0
where
  go : Nat → List Char → Bool
    | _, [] => true
    | n, c :: cs => if sc.GetRelative n = c then go (n + 1) cs else false

/-- The run loop of `FollowToLineEnd`:
`while (sc.GetRelative(++i) == ch) ;` — returns the final `i` (the first
index at or above `i0 + 1` whose character differs from `ch`).  Fuel-bounded;
the fuel used at the call site exceeds the document length, which suffices
for every non-NUL `ch`. -/
def ftleRun (sc : StyleContext) (c : Char) : Nat → Nat → Nat
  | 0, i => i + 1
  | f + 1, i =>
    if sc.GetRelative ((i : Int) + 1) = c then ftleRun sc c f (i + 1) else i + 1

/-- The whitespace-skip loop of `FollowToLineEnd`:
`while (IsASpaceOrTab(sc.GetRelative(i)) && sc.currentPos + i < endPos) ++i;`. -/
def ftleWs (sc : StyleContext) (endPos : Nat) : Nat → Nat → Nat
  | 0, i => i
  | f + 1, i =>
    if IsASpaceOrTab (sc.GetRelative (i : Int)) ∧ sc.currentPos + i < endPos then
      ftleWs sc endPos f (i + 1)
    else i

/-- The index reached by the two loops of `FollowToLineEnd`: the marker
run followed by the whitespace skip. -/
def ftleIdx (sc : StyleContext) (c : Char) (endPos : Nat) : Nat :=
  ftleWs sc endPos (endPos + 2) (ftleRun sc c (sc.doc.length + 2) 0)

/-- `FollowToLineEnd` from LexMarkdown.cxx: follow a run of `c` down to the
end of the line (with trailing whitespace tolerated); on success advance past
the run, retag the open segment as `state`, open `LINE_BEGIN`, and report
true; on failure leave the cursor unchanged. -/
def FollowToLineEnd (c : Char) (state : MDStyle) (endPos : Nat)
    (sc : StyleContext) : Bool × StyleContext :=
  if IsNewline (sc.GetRelative (ftleIdx sc c endPos : Int)) ∨
      sc.currentPos + ftleIdx sc c endPos = endPos then
    (true, (((sc.ForwardN (ftleIdx sc c endPos)).ChangeState state).SetState LINE_BEGIN))
  else (false, sc)

/-- The first backward loop shared by `HasPrevLineContent` and
`IsPrevLineEmpty`:
`while ((--i + currentPos) >= 0 && !IsNewline(sc.GetRelative(i))) ;` —
returns the final (decremented) `i`. -/
def backToPrevNewline (d : List Char) (pos : Nat) : Nat → Int → Int
  | 0, i => i - 1
  | f + 1, i =>
    if i - 1 + pos ≥ 0 ∧ ¬ IsNewline (chAt d ((pos : Int) + (i - 1))) then
      backToPrevNewline d pos f (i - 1)
    else i - 1

/-- The second backward loop of `HasPrevLineContent`: scan the previous line
backwards; a non-space/tab character means content, a newline or the
document start means none. -/
def hplcScan (d : List Char) (pos : Nat) : Nat → Int → Bool
  | 0, _ => false
  | f + 1, i =>
    if i - 1 + pos ≥ 0 then
      if IsNewline (chAt d ((pos : Int) + (i - 1))) then false
      else if ¬ IsASpaceOrTab (chAt d ((pos : Int) + (i - 1))) then true
      else hplcScan d pos f (i - 1)
    else false

/-- The body of `HasPrevLineContent` as a function of the document and
the cursor position (the only cursor fields it reads). -/
def hasPrevLineContentAt (d : List Char) (pos : Nat) : Bool :=
  hplcScan d pos (pos + 2)
    (if chAt d ((pos : Int) + (backToPrevNewline d pos (pos + 2) 0 - 1)) = '\r' ∧
        chAt d ((pos : Int) + backToPrevNewline d pos (pos + 2) 0) = '\n' then
      backToPrevNewline d pos (pos + 2) 0 - 1
    else backToPrevNewline d pos (pos + 2) 0)

/-- `HasPrevLineContent` from LexMarkdown.cxx: does the previous line have
more than spaces and tabs? -/
def HasPrevLineContent (sc : StyleContext) : Bool :=
  hasPrevLineContentAt sc.doc sc.currentPos

/-- The newline-skip adjustment of `IsPrevLineEmpty` applied to the index
reached by its first backward loop. -/
def ipleAdj (d : List Char) (pos : Nat) : Int :=
  if chAt d ((pos : Int) + (backToPrevNewline d pos (pos + 2) 0 - 1)) = '\r' ∧
      chAt d ((pos : Int) + backToPrevNewline d pos (pos + 2) 0) = '\n' then
    backToPrevNewline d pos (pos + 2) 0 - 2
  else if chAt d ((pos : Int) + backToPrevNewline d pos (pos + 2) 0) = '\r' ∨
      chAt d ((pos : Int) + backToPrevNewline d pos (pos + 2) 0) = '\n' then
    backToPrevNewline d pos (pos + 2) 0 - 1
  else backToPrevNewline d pos (pos + 2) 0

/-- The body of `IsPrevLineEmpty` as a function of the document and the
cursor position (the only cursor fields it reads). -/
def isPrevLineEmptyAt (d : List Char) (pos : Nat) : Bool :=
  IsNewline (chAt d ((pos : Int) + ipleAdj d pos)) || (pos : Int) + ipleAdj d pos ≤ 0

/-- `IsPrevLineEmpty` from LexMarkdown.cxx: does the previous line contain
only newline characters (or does the document start precede it)? -/
def IsPrevLineEmpty (sc : StyleContext) : Bool :=
  isPrevLineEmptyAt sc.doc sc.currentPos

/-- `AtTermStart` from LexMarkdown.cxx. -/
def AtTermStart (sc : StyleContext) : Bool :=
  sc.currentPos = 0 || sc.chPrev = nulChar || isspacechar sc.chPrev

/-- The counting loop of `IsValidHrule`: returns the success decision and
the final `i`.  Fuel-bounded; the fuel at the call site covers the document
and the end offset, which suffices for every non-NUL marker character. -/
def hruleScan (sc : StyleContext) (endPos : Nat) : Nat → Nat → Nat → Bool × Nat
  | 0, _, i => (false, i)
  | f + 1, count, i =>
    let i2 := i + 1
    let c := sc.GetRelative (i2 : Int)
    if c = sc.ch then hruleScan sc endPos f (count + 1) i2
    else if ¬ IsASpaceOrTab c ∨ sc.currentPos + i2 = endPos then
      ((IsNewline c ∨ sc.currentPos + i2 = endPos) ∧ count ≥ 3 ∧
         ¬ HasPrevLineContent sc, i2)
    else hruleScan sc endPos f count i2

/-- `IsValidHrule` from LexMarkdown.cxx: from the current marker character,
count a run of identical markers (spaces/tabs tolerated); on success close
an `HRULE` span over the run and open `LINE_BEGIN`; on failure open
`DEFAULT` without advancing. -/
def IsValidHrule (endPos : Nat) (sc : StyleContext) : Bool × StyleContext :=
  if (hruleScan sc endPos (sc.doc.length + endPos + 4) 1 0).1 then
    (true, (((sc.SetState HRULE).ForwardN
      (hruleScan sc endPos (sc.doc.length + endPos + 4) 1 0).2).SetState LINE_BEGIN))
  else (false, sc.SetState DEFAULT)

/-- The first loop of `IsUnderlinedHeader`: walk the current line to its
end (bounded by the end offset), recording whether it has non-whitespace
content; returns `(firstLineHasContent, i)`. -/
def underFirstLine (sc : StyleContext) (endPos : Nat) : Nat → Bool → Nat → Bool × Nat
  | 0, flc, i => (flc, i)
  | f + 1, flc, i =>
    if sc.currentPos + i < endPos ∧ ¬ IsNewline (sc.GetRelative (i : Int)) then
      underFirstLine sc endPos f (flc || ¬ IsASpaceOrTab (sc.GetRelative (i : Int))) (i + 1)
    else (flc, i)

/-- The marker-skipping loop of `IsUnderlinedHeader`:
`while (sc.currentPos + i < endPos && sc.GetRelative(i) == hdrCh) ++i;`. -/
def underSkipMarker (sc : StyleContext) (endPos : Nat) (hdrCh : Char) : Nat → Nat → Nat
  | 0, i => i
  | f + 1, i =>
    if sc.currentPos + i < endPos ∧ sc.GetRelative (i : Int) = hdrCh then
      underSkipMarker sc endPos hdrCh f (i + 1)
    else i

/-- The whitespace-skipping loop of `IsUnderlinedHeader`. -/
def underSkipWs (sc : StyleContext) (endPos : Nat) : Nat → Nat → Nat
  | 0, i => i
  | f + 1, i =>
    if sc.currentPos + i < endPos ∧ IsASpaceOrTab (sc.GetRelative (i : Int)) then
      underSkipWs sc endPos f (i + 1)
    else i

/-- `IsUnderlinedHeader` from LexMarkdown.cxx: true when the current line
has content and the following line consists of `hdrCh` characters (then
optional trailing whitespace) to its end.  Pure: does not move the cursor. -/
def IsUnderlinedHeader (hdrCh : Char) (endPos : Nat) (sc : StyleContext) : Bool :=
  let r := underFirstLine sc endPos (endPos + 2) false 0
  let flc := r.1
  let i := r.2
  let c := sc.GetRelative (i : Int)
  if ¬ flc ∨ ¬ IsNewline c then false
  else
    let nextCh := sc.GetRelative ((i : Int) + 1)
    let i := i + (if c = '\r' ∧ nextCh = '\n' then 2 else 1)
    if sc.GetRelative (i : Int) ≠ hdrCh then false
    else
      let i := underSkipMarker sc endPos hdrCh (endPos + 2) i
      let i := underSkipWs sc endPos (endPos + 2) i
      IsNewline (sc.GetRelative (i : Int)) || sc.currentPos + i = endPos

/-- Per-call scan state of `ColorizeMarkdownDoc`: cursor plus the mutable
locals `precharCount`, `isLinkNameDetecting` and `freezeCursor`. -/
structure MDScan where
  sc : StyleContext
  precharCount : Nat
  isLinkNameDetecting : Bool
  freezeCursor : Bool
deriving DecidableEq, Repr

/-- The pattern `"~~~"`. -/
def tildes3 : List Char := ['~', '~', '~']

/-- The pattern of three backquotes. -/
def fence3 : List Char := [backquote, backquote, backquote]

/-- The pattern `"**"`. -/
def star2 : List Char := ['*', '*']

/-- The pattern `"__"`. -/
def under2 : List Char := ['_', '_']

/-- The pattern `"~~"`. -/
def tilde2 : List Char := ['~', '~']

/-- The pattern `"]("`. -/
def linkMid : List Char := [']', '(']

/-- The pattern `"]:"`. -/
def linkRef : List Char := [']', ':']

/-- The line scan of the (unreachable) second `CODEBK` branch:
`Sci_Position i = 1; while (!IsNewline(sc.GetRelative(i)) && sc.currentPos + i < endPos) i++;`. -/
def tildeLineScan (sc : StyleContext) (endPos : Nat) : Nat → Nat → Nat
  | 0, i => i
  | f + 1, i =>
    if ¬ IsNewline (sc.GetRelative (i : Int)) ∧ sc.currentPos + i < endPos then
      tildeLineScan sc endPos f (i + 1)
    else i

/-- The `CODE2` close rule of the main loop chain. -/
def code2Rule (s : MDScan) : MDScan :=
  if s.sc.Match fence3 then { s with sc := (s.sc.ForwardN 3).SetState DEFAULT } else s

/-- The `CODE` close rule of the main loop chain. -/
def codeRule (s : MDScan) : MDScan :=
  if s.sc.ch = backquote ∧ s.sc.chPrev ≠ ' ' then
    { s with sc := s.sc.ForwardSetState DEFAULT }
  else s

/-- The first `CODEBK` rule of the main loop chain: close back to
`LINE_BEGIN` when a line starts with neither a tab nor four spaces. -/
def codebkIndentRule (s : MDScan) : MDScan :=
  if !(if s.sc.atLineStart ∧ s.sc.ch ≠ '\t' then
        (s.sc.GetRelative 0 == ' ' && s.sc.GetRelative 1 == ' ' &&
         s.sc.GetRelative 2 == ' ' && s.sc.GetRelative 3 == ' ')
      else true) then
    { s with sc := s.sc.SetState LINE_BEGIN }
  else s

/-- The `STRONG1` close rule of the main loop chain. -/
def strong1Rule (s : MDScan) : MDScan :=
  if s.sc.Match star2 ∧ s.sc.chPrev ≠ ' ' then
    { s with sc := (s.sc.ForwardN 2).SetState DEFAULT }
  else s

/-- The `STRONG2` close rule of the main loop chain. -/
def strong2Rule (s : MDScan) : MDScan :=
  if s.sc.Match under2 ∧ s.sc.chPrev ≠ ' ' then
    { s with sc := (s.sc.ForwardN 2).SetState DEFAULT }
  else s

/-- The second `CODEBK` rule of the source chain (the `~~~` fenced close):
unreachable, since the first `CODEBK` test of the chain already catches the
state; kept exactly as in the source. -/
def codebkTildeRule (endPos : Nat) (s : MDScan) : MDScan :=
  if s.sc.atLineStart ∧ s.sc.Match tildes3 then
    { s with sc := (s.sc.ForwardN (tildeLineScan s.sc endPos (endPos + 2) 1)).SetState DEFAULT }
  else s

/-- The `STRIKEOUT` close rule of the main loop chain. -/
def strikeoutRule (s : MDScan) : MDScan :=
  if s.sc.Match tilde2 ∧ s.sc.chPrev ≠ ' ' then
    { s with sc := (s.sc.ForwardN 2).SetState DEFAULT }
  else s

/-- The tail of the `LINE_BEGIN` entry rules: the code-fence, setext
underline, horizontal-rule prefix and fallthrough cases (everything after
the `#` header runs). -/
def lineBeginSetext (endPos : Nat) (s : MDScan) : MDScan :=
  if s.sc.Match tildes3 then
    if ¬ HasPrevLineContent s.sc then { s with sc := s.sc.SetState CODEBK }
    else { s with sc := s.sc.SetState DEFAULT }
  else if IsUnderlinedHeader '=' endPos s.sc then { s with sc := s.sc.SetState HEADER1 }
  else if s.sc.ch = '=' then
    if HasPrevLineContent s.sc then
      if (FollowToLineEnd '=' HEADER1 endPos s.sc).1 then
        { s with sc := (FollowToLineEnd '=' HEADER1 endPos s.sc).2 }
      else { s with sc := (FollowToLineEnd '=' HEADER1 endPos s.sc).2.SetState DEFAULT }
    else { s with sc := s.sc.SetState DEFAULT }
  else if IsUnderlinedHeader '-' endPos s.sc then { s with sc := s.sc.SetState HEADER2 }
  else if s.sc.ch = '-' then
    if HasPrevLineContent s.sc then
      if (FollowToLineEnd '-' HEADER2 endPos s.sc).1 then
        { s with sc := (FollowToLineEnd '-' HEADER2 endPos s.sc).2 }
      else
        { s with sc := (FollowToLineEnd '-' HEADER2 endPos s.sc).2.SetState PRECHAR,
                 precharCount := 0 }
    else { s with sc := s.sc.SetState PRECHAR, precharCount := 0 }
  else if IsNewline s.sc.ch then { s with sc := s.sc.SetState LINE_BEGIN }
  else { s with sc := s.sc.SetState PRECHAR, precharCount := 0 }

/-- The `LINE_BEGIN` entry rules of the main loop chain: the `#` header
runs, then the remaining cases (`lineBeginSetext`). -/
def lineBeginRules (endPos : Nat) (s : MDScan) : MDScan :=
  if s.sc.Match ['#', '#', '#', '#', '#', '#'] then { s with sc := s.sc.SetState HEADER6 }
  else if s.sc.Match ['#', '#', '#', '#', '#'] then { s with sc := s.sc.SetState HEADER5 }
  else if s.sc.Match ['#', '#', '#', '#'] then { s with sc := s.sc.SetState HEADER4 }
  else if s.sc.Match ['#', '#', '#'] then { s with sc := s.sc.SetState HEADER3 }
  else if s.sc.Match ['#', '#'] then { s with sc := s.sc.SetState HEADER2 }
  else if s.sc.Match ['#'] then { s with sc := s.sc.SetState HEADER1 }
  else lineBeginSetext endPos s

/-- The header close rule of the main loop chain (the header lasts until
the newline). -/
def headerRule (s : MDScan) : MDScan :=
  if IsNewline s.sc.ch then { s with sc := s.sc.SetState LINE_BEGIN } else s

/-- The conditional state-based else-if chain of the main loop of
`ColorizeMarkdownDoc` (per-state close rules, the `LINE_BEGIN` entry rules
and the header close rule), translated branch for branch — including the
second, unreachable `CODEBK` test of the source chain. -/
def mdChain (endPos : Nat) (s : MDScan) : MDScan :=
  if s.sc.state = CODE2 then code2Rule s
  else if s.sc.state = CODE then codeRule s
  else if s.sc.state = CODEBK then codebkIndentRule s
  else if s.sc.state = STRONG1 then strong1Rule s
  else if s.sc.state = STRONG2 then strong2Rule s
  else if s.sc.state = CODEBK then codebkTildeRule endPos s
  else if s.sc.state = STRIKEOUT then strikeoutRule s
  else if s.sc.state = LINE_BEGIN then lineBeginRules endPos s
  else if s.sc.state = HEADER1 ∨ s.sc.state = HEADER2 ∨ s.sc.state = HEADER3 ∨
      s.sc.state = HEADER4 ∨ s.sc.state = HEADER5 ∨ s.sc.state = HEADER6 then
    headerRule s
  else s

/-- The `PRECHAR` block of the main loop (new state only within the
initial whitespace). -/
def mdPrechar (endPos : Nat) (s : MDScan) : MDScan :=
  if s.sc.state = PRECHAR then
    if s.sc.ch = '>' ∧ s.precharCount < 5 then { s with sc := s.sc.SetState BLOCKQUOTE }
    else if IsPrevLineEmpty s.sc ∧ (s.sc.chPrev = '\t' ∨ s.precharCount ≥ 4) then
      { s with sc := s.sc.SetState CODEBK }
    else if s.sc.ch = '-' ∨ s.sc.ch = '*' ∨ s.sc.ch = '_' then
      if (IsValidHrule endPos s.sc).1 then { s with sc := (IsValidHrule endPos s.sc).2 }
      else if s.sc.ch ≠ ' ' then { s with sc := (IsValidHrule endPos s.sc).2.SetState DEFAULT }
      else { s with precharCount := s.precharCount + 1 }
    else if s.sc.ch ≠ ' ' then { s with sc := s.sc.SetState DEFAULT }
    else { s with precharCount := s.precharCount + 1 }
  else s

/-- The `LINK` block of the main loop (any link). -/
def mdLink (s : MDScan) : MDScan :=
  if s.sc.state = LINK then
    if s.sc.Match linkMid ∧ s.sc.GetRelative (-1) ≠ '\\' then
      { s with sc := s.sc.ForwardN 2, isLinkNameDetecting := true }
    else if s.sc.Match linkRef ∧ s.sc.GetRelative (-1) ≠ '\\' then
      { s with sc := (s.sc.ForwardN 2).SetState DEFAULT }
    else if ¬ s.isLinkNameDetecting ∧ s.sc.ch = ']' ∧ s.sc.GetRelative (-1) ≠ '\\' then
      { s with sc := s.sc.Forward.SetState DEFAULT }
    else if s.isLinkNameDetecting ∧ s.sc.ch = ')' ∧ s.sc.GetRelative (-1) ≠ '\\' then
      { s with sc := s.sc.Forward.SetState DEFAULT, isLinkNameDetecting := false }
    else s
  else s

/-- The `DEFAULT` block of the main loop (new state anywhere in doc),
including the no-advance re-dispatch that sets `freezeCursor`. -/
def mdDefaultRules (endPos : Nat) (s : MDScan) : MDScan :=
  if s.sc.state = DEFAULT then
    if s.sc.atLineStart ∧ (s.sc.ch = '#' ∨ IsUnderlinedHeader '=' endPos s.sc ∨
        IsUnderlinedHeader '-' endPos s.sc) then
      { s with sc := s.sc.SetState LINE_BEGIN, freezeCursor := true }
    else if s.sc.Match fence3 ∧ AtTermStart s.sc then
      { s with sc := (s.sc.SetState CODE2).Forward }
    else if s.sc.ch = backquote ∧ s.sc.chNext ≠ ' ' ∧ AtTermStart s.sc then
      { s with sc := s.sc.SetState CODE }
    else if s.sc.Match star2 ∧ s.sc.GetRelative 2 ≠ ' ' ∧ AtTermStart s.sc then
      { s with sc := (s.sc.SetState STRONG1).Forward }
    else if s.sc.Match under2 ∧ s.sc.GetRelative 2 ≠ ' ' ∧ AtTermStart s.sc then
      { s with sc := (s.sc.SetState STRONG2).Forward }
    else if s.sc.Match tilde2 ∧ s.sc.GetRelative 2 ≠ ' ' ∧ AtTermStart s.sc then
      { s with sc := (s.sc.SetState STRIKEOUT).Forward }
    else if IsNewline s.sc.ch then { s with sc := s.sc.SetState LINE_BEGIN }
    else s
  else s

/-- The cursor-advance step at the bottom of the main loop:
advance unless `freezeCursor` held the cursor back, then clear the flag. -/
def mdAdvance (s : MDScan) : MDScan :=
  if ¬ s.freezeCursor then { s with sc := s.sc.Forward, freezeCursor := false }
  else { s with freezeCursor := false }

/-- The body of one loop iteration after the escape rule and the
blockquote reset: the state chain, then the `PRECHAR`, `LINK` and
`DEFAULT` blocks, then the conditional advance. -/
def mdRest (s : MDScan) : MDScan :=
  mdAdvance (mdDefaultRules s.sc.endPos
    (mdLink (mdPrechar s.sc.endPos (mdChain s.sc.endPos s))))

/-- One iteration of the main dispatch loop of `ColorizeMarkdownDoc`:
the escape rule (which skips the rest of the iteration, including the
flag-clearing advance step), then the blockquote reset followed by the
rule blocks and the conditional advance (`mdRest`). -/
def mdStep (s : MDScan) : MDScan :=
  if s.sc.ch = '\\' then { s with sc := s.sc.Forward }
  else
    mdRest (if s.sc.state = BLOCKQUOTE then { s with sc := s.sc.SetState LINE_BEGIN } else s)

/-- The main loop `while (sc.More()) { ... }` with explicit fuel;
`none` means the loop did not reach the end offset within `fuel` iterations. -/
def mdLoop : Nat → MDScan → Option MDScan
  | 0, s => if s.sc.More then none else some s
  | f + 1, s => if s.sc.More then mdLoop f (mdStep s) else some s

/-- The effective scan start: the requested start extended backward to the
start of the previous physical line (the resume rule of
`ColorizeMarkdownDoc`). -/
def effStart (doc : List Char) (startPos : Nat) : Nat :=
  if startPos > 0 then prevLineStart doc startPos else startPos

/-- Entry set-up of `ColorizeMarkdownDoc`: backward extension to the
previous line start with the persisted style of that position as initial
state, then the style-leak reset (any initial style ordinally greater than
`CODEBK` becomes `DEFAULT`), then cursor construction.  `stored` is the
buffer's persisted per-position classification (`styler.StyleAt`),
defaulting to `DEFAULT`. -/
def mdInit (doc : List Char) (startPos length : Nat) (initStyle : MDStyle)
    (stored : List MDStyle) : MDScan :=
  let endPos := startPos + length
  let newStartPos := effStart doc startPos
  let st := if startPos > 0 then stored.getD newStartPos DEFAULT else initStyle
  let st := if styleOrd CODEBK < styleOrd st then DEFAULT else st
  { sc := { doc := doc, endPos := endPos, currentPos := newStartPos,
            state := st, startSeg := newStartPos, spans := [] },
    precharCount := 0, isLinkNameDetecting := false, freezeCursor := false }

/-- `ColorizeMarkdownDoc` from LexMarkdown.cxx: the full scan call.
Returns the final cursor (span stream included) or `none` when the main
loop does not terminate within `fuel` iterations. -/
def ColorizeMarkdownDoc (fuel : Nat) (doc : List Char) (startPos length : Nat)
    (initStyle : MDStyle) (stored : List MDStyle) : Option StyleContext :=
  (mdLoop fuel (mdInit doc startPos length initStyle stored)).map
    (fun s => s.sc.Complete)

/-- Write the style of one span into the per-position style store. -/
def writeSpan (st : List MDStyle) (a b : Nat) (y : MDStyle) : List MDStyle :=
  (List.range st.length).map
    (fun i => if a ≤ i ∧ i < b then y else st.getD i DEFAULT)

/-- Commit an emitted span stream into the per-position style store
(later spans overwrite earlier ones, as the buffer does). -/
def applySpans : List MDStyle → List (Nat × Nat × MDStyle) → List MDStyle
  | st, [] => st
  | st, (a, b, y) :: rest => applySpans (writeSpan st a b y) rest

/-- The per-position styles left by one full fresh scan of `doc`
(start 0, whole length, initial `DEFAULT`, empty style store). -/
def scanStyles (doc : List Char) : List MDStyle :=
  match ColorizeMarkdownDoc (4 * doc.length + 8) doc 0 doc.length DEFAULT
      (List.replicate doc.length DEFAULT) with
  | some out => applySpans (List.replicate doc.length DEFAULT) out.spans
  | none => []

/-- The span stream of one full fresh scan of `doc`. -/
def scanSpans (doc : List Char) : List (Nat × Nat × MDStyle) :=
  match ColorizeMarkdownDoc (4 * doc.length + 8) doc 0 doc.length DEFAULT
      (List.replicate doc.length DEFAULT) with
  | some out => out.spans
  | none => []

/-- The span streams of a split scan: one call over `[0, k)` followed by
one over `[k, |doc|)`, the second resuming from the styles the first call
persisted (the incremental re-lex protocol of §4.2/§8). -/
def splitSpans (doc : List Char) (k : Nat) :
    List (Nat × Nat × MDStyle) × List (Nat × Nat × MDStyle) :=
  match ColorizeMarkdownDoc (4 * doc.length + 8) doc 0 k DEFAULT
      (List.replicate doc.length DEFAULT) with
  | some out1 =>
    let stored1 := applySpans (List.replicate doc.length DEFAULT) out1.spans
    match ColorizeMarkdownDoc (4 * doc.length + 8) doc k (doc.length - k)
        (stored1.getD k DEFAULT) stored1 with
    | some out2 => (out1.spans, out2.spans)
    | none => (out1.spans, [])
  | none => ([], [])

/-- The per-position styles after a split scan (second call overwriting
the overlap, as the buffer does). -/
def splitStyles (doc : List Char) (k : Nat) : List MDStyle :=
  match ColorizeMarkdownDoc (4 * doc.length + 8) doc 0 k DEFAULT
      (List.replicate doc.length DEFAULT) with
  | some out1 =>
    let stored1 := applySpans (List.replicate doc.length DEFAULT) out1.spans
    match ColorizeMarkdownDoc (4 * doc.length + 8) doc k (doc.length - k)
        (stored1.getD k DEFAULT) stored1 with
    | some out2 => applySpans stored1 out2.spans
    | none => []
  | none => []

@[simp]
theorem SetState_state (sc : StyleContext) (st : MDStyle) :
    (sc.SetState st).state = st := by
  unfold StyleContext.SetState; split <;> rfl

@[simp]
theorem SetState_currentPos (sc : StyleContext) (st : MDStyle) :
    (sc.SetState st).currentPos = sc.currentPos := by
  unfold StyleContext.SetState; split <;> rfl

@[simp]
theorem SetState_doc (sc : StyleContext) (st : MDStyle) :
    (sc.SetState st).doc = sc.doc := by
  unfold StyleContext.SetState; split <;> rfl

@[simp]
theorem SetState_endPos (sc : StyleContext) (st : MDStyle) :
    (sc.SetState st).endPos = sc.endPos := by
  unfold StyleContext.SetState; split <;> rfl

@[simp]
theorem SetState_startSeg (sc : StyleContext) (st : MDStyle) :
    (sc.SetState st).startSeg = sc.currentPos := by
  unfold StyleContext.SetState; split <;> rfl

@[simp]
theorem ChangeState_state (sc : StyleContext) (st : MDStyle) :
    (sc.ChangeState st).state = st := rfl

@[simp]
theorem Forward_state (sc : StyleContext) : (sc.Forward).state = sc.state := by
  unfold StyleContext.Forward; split <;> rfl

@[simp]
theorem Forward_doc (sc : StyleContext) : (sc.Forward).doc = sc.doc := by
  unfold StyleContext.Forward; split <;> rfl

@[simp]
theorem Forward_endPos (sc : StyleContext) : (sc.Forward).endPos = sc.endPos := by
  unfold StyleContext.Forward; split <;> rfl

@[simp]
theorem Forward_startSeg (sc : StyleContext) : (sc.Forward).startSeg = sc.startSeg := by
  unfold StyleContext.Forward; split <;> rfl

@[simp]
theorem Forward_spans (sc : StyleContext) : (sc.Forward).spans = sc.spans := by
  unfold StyleContext.Forward; split <;> rfl

@[simp]
theorem ForwardN_state (sc : StyleContext) (n : Nat) :
    (sc.ForwardN n).state = sc.state := rfl

@[simp]
theorem ForwardN_doc (sc : StyleContext) (n : Nat) :
    (sc.ForwardN n).doc = sc.doc := rfl

@[simp]
theorem ForwardN_endPos (sc : StyleContext) (n : Nat) :
    (sc.ForwardN n).endPos = sc.endPos := rfl

@[simp]
theorem ForwardN_currentPos (sc : StyleContext) (n : Nat) :
    (sc.ForwardN n).currentPos = min (sc.currentPos + n) sc.endPos := rfl

@[simp]
theorem ForwardSetState_state (sc : StyleContext) (st : MDStyle) :
    (sc.ForwardSetState st).state = st := by
  unfold StyleContext.ForwardSetState; simp

theorem Forward_currentPos_mono (sc : StyleContext) :
    sc.currentPos ≤ (sc.Forward).currentPos := by
  unfold StyleContext.Forward; split <;> simp

theorem Forward_currentPos_le (sc : StyleContext) (h : sc.currentPos ≤ sc.endPos) :
    (sc.Forward).currentPos ≤ sc.endPos := by
  unfold StyleContext.Forward; split
  · exact Nat.succ_le_of_lt (by assumption)
  · exact h

/-- The success/failure shape of `FollowToLineEnd`'s resulting state. -/
theorem ftle_snd_state (c : Char) (st : MDStyle) (e : Nat) (sc : StyleContext) :
    (FollowToLineEnd c st e sc).2.state = LINE_BEGIN ∨
      (FollowToLineEnd c st e sc).2 = sc := by
  unfold FollowToLineEnd; split
  · left; simp
  · right; rfl

/-- The success/failure shape of `IsValidHrule`'s resulting state. -/
theorem hrule_snd_state (e : Nat) (sc : StyleContext) :
    (IsValidHrule e sc).2.state = LINE_BEGIN ∨
      (IsValidHrule e sc).2.state = DEFAULT := by
  unfold IsValidHrule; split
  · left; simp
  · right; simp

/-- On failure `IsValidHrule` opens `DEFAULT` without moving the cursor. -/
theorem hrule_fail (e : Nat) (sc : StyleContext)
    (h : (IsValidHrule e sc).1 = false) :
    (IsValidHrule e sc).2 = sc.SetState DEFAULT := by
  by_cases hc : (hruleScan sc e (sc.doc.length + e + 4) 1 0).1 = true
  · exfalso; unfold IsValidHrule at h; simp [hc] at h
  · unfold IsValidHrule; simp [hc]

/-- On success `IsValidHrule` leaves the scan in `LINE_BEGIN`. -/
theorem hrule_succ (e : Nat) (sc : StyleContext)
    (h : (IsValidHrule e sc).1 = true) :
    (IsValidHrule e sc).2.state = LINE_BEGIN := by
  by_cases hc : (hruleScan sc e (sc.doc.length + e + 4) 1 0).1 = true
  · unfold IsValidHrule; simp [hc]
  · exfalso; unfold IsValidHrule at h; simp [hc] at h

/-- The emitted span stream tiles `[a, b)`: consecutive, non-empty,
gap-free spans from `a` to `b`. -/
def spanTilingB : List (Nat × Nat × MDStyle) → Nat → Nat → Bool
  | [], a, b => a == b
  | (x, y, _) :: rest, a, b => x == a && decide (a < y) && spanTilingB rest y b

theorem spanTilingB_append (l : List (Nat × Nat × MDStyle)) (st : MDStyle)
    (a b c : Nat) (h : spanTilingB l a b = true) (hbc : b < c) :
    spanTilingB (l ++ [(b, c, st)]) a c = true := by
  induction l generalizing a with
  | nil =>
    simp only [spanTilingB, beq_iff_eq] at h
    subst h
    simp [spanTilingB, hbc]
  | cons hd tl ih =>
    obtain ⟨x, y, z⟩ := hd
    simp only [spanTilingB, Bool.and_eq_true, beq_iff_eq, decide_eq_true_eq] at h
    obtain ⟨⟨hx, hy⟩, ht⟩ := h
    simp only [List.cons_append, spanTilingB, Bool.and_eq_true, beq_iff_eq,
      decide_eq_true_eq]
    exact ⟨⟨hx, hy⟩, ih y ht⟩

/-- The structural scan invariant: the emitted spans tile `[A, startSeg)`,
the cursor sits between the open segment start and the end offset, and the
end offset stays fixed at `E`. -/
def SCInv (A E : Nat) (sc : StyleContext) : Prop :=
  spanTilingB sc.spans A sc.startSeg = true ∧
    sc.startSeg ≤ sc.currentPos ∧ sc.currentPos ≤ sc.endPos ∧ sc.endPos = E

theorem SCInv.setState {A E : Nat} {sc : StyleContext} (h : SCInv A E sc)
    (st : MDStyle) : SCInv A E (sc.SetState st) := by
  obtain ⟨ht, hs, hc, he⟩ := h
  unfold StyleContext.SetState; split
  · exact ⟨spanTilingB_append _ _ _ _ _ ht (by assumption), le_refl _, hc, he⟩
  · have hss : sc.startSeg = sc.currentPos := by omega
    exact ⟨hss ▸ ht, le_refl _, hc, he⟩

theorem SCInv.changeState {A E : Nat} {sc : StyleContext} (h : SCInv A E sc)
    (st : MDStyle) : SCInv A E (sc.ChangeState st) := h

theorem SCInv.forward {A E : Nat} {sc : StyleContext} (h : SCInv A E sc) :
    SCInv A E sc.Forward := by
  obtain ⟨ht, hs, hc, he⟩ := h
  refine ⟨by simpa using ht, ?_, ?_, ?_⟩
  · rw [Forward_startSeg]; exact le_trans hs (Forward_currentPos_mono sc)
  · rw [Forward_endPos]; exact Forward_currentPos_le sc hc
  · rw [Forward_endPos]; exact he

theorem SCInv.forwardN {A E : Nat} {sc : StyleContext} (h : SCInv A E sc) (n : Nat) :
    SCInv A E (sc.ForwardN n) := by
  obtain ⟨ht, hs, hc, he⟩ := h
  refine ⟨ht, ?_, ?_, he⟩
  · show sc.startSeg ≤ min (sc.currentPos + n) sc.endPos
    exact le_min (le_trans hs (Nat.le_add_right _ _)) (le_trans hs hc)
  · show min (sc.currentPos + n) sc.endPos ≤ sc.endPos
    exact min_le_right _ _

theorem SCInv.forwardSetState {A E : Nat} {sc : StyleContext} (h : SCInv A E sc)
    (st : MDStyle) : SCInv A E (sc.ForwardSetState st) :=
  (h.forward).setState st

theorem SCInv.ftle {A E : Nat} {sc : StyleContext} (h : SCInv A E sc)
    (c : Char) (st : MDStyle) (e : Nat) :
    SCInv A E (FollowToLineEnd c st e sc).2 := by
  unfold FollowToLineEnd; split
  · exact (((h.forwardN _).changeState st).setState LINE_BEGIN)
  · exact h

theorem SCInv.hrule {A E : Nat} {sc : StyleContext} (h : SCInv A E sc) (e : Nat) :
    SCInv A E (IsValidHrule e sc).2 := by
  unfold IsValidHrule; split
  · exact (((h.setState HRULE).forwardN _).setState LINE_BEGIN)
  · exact h.setState DEFAULT

theorem SCInv.code2 {A E : Nat} {s : MDScan} (h : SCInv A E s.sc) :
    SCInv A E (code2Rule s).sc := by
  unfold code2Rule
  repeat' split
  all_goals first | exact h | exact (h.forwardN _).setState _

theorem SCInv.code {A E : Nat} {s : MDScan} (h : SCInv A E s.sc) :
    SCInv A E (codeRule s).sc := by
  unfold codeRule
  repeat' split
  all_goals first | exact h | exact h.forwardSetState _

theorem SCInv.codebkIndent {A E : Nat} {s : MDScan} (h : SCInv A E s.sc) :
    SCInv A E (codebkIndentRule s).sc := by
  unfold codebkIndentRule
  repeat' split
  all_goals first | exact h | exact h.setState _

theorem SCInv.strong1 {A E : Nat} {s : MDScan} (h : SCInv A E s.sc) :
    SCInv A E (strong1Rule s).sc := by
  unfold strong1Rule
  repeat' split
  all_goals first | exact h | exact (h.forwardN _).setState _

theorem SCInv.strong2 {A E : Nat} {s : MDScan} (h : SCInv A E s.sc) :
    SCInv A E (strong2Rule s).sc := by
  unfold strong2Rule
  repeat' split
  all_goals first | exact h | exact (h.forwardN _).setState _

theorem SCInv.codebkTilde {A E : Nat} (e : Nat) {s : MDScan} (h : SCInv A E s.sc) :
    SCInv A E (codebkTildeRule e s).sc := by
  unfold codebkTildeRule
  repeat' split
  all_goals first | exact h | exact (h.forwardN _).setState _

theorem SCInv.strikeout {A E : Nat} {s : MDScan} (h : SCInv A E s.sc) :
    SCInv A E (strikeoutRule s).sc := by
  unfold strikeoutRule
  repeat' split
  all_goals first | exact h | exact (h.forwardN _).setState _

theorem SCInv.lineBeginTail {A E : Nat} (e : Nat) {s : MDScan} (h : SCInv A E s.sc) :
    SCInv A E (lineBeginSetext e s).sc := by
  unfold lineBeginSetext
  repeat' split
  all_goals
    first
      | exact h
      | exact h.setState _
      | exact h.ftle _ _ _
      | exact (h.ftle _ _ _).setState _

theorem SCInv.lineBegin {A E : Nat} (e : Nat) {s : MDScan} (h : SCInv A E s.sc) :
    SCInv A E (lineBeginRules e s).sc := by
  unfold lineBeginRules
  repeat' split
  all_goals first | exact h.setState _ | exact h.lineBeginTail e

theorem SCInv.header {A E : Nat} {s : MDScan} (h : SCInv A E s.sc) :
    SCInv A E (headerRule s).sc := by
  unfold headerRule
  repeat' split
  all_goals first | exact h | exact h.setState _

theorem SCInv.chain {A E : Nat} (e : Nat) {s : MDScan} (h : SCInv A E s.sc) :
    SCInv A E (mdChain e s).sc := by
  unfold mdChain
  repeat' split
  all_goals
    first
      | exact h
      | exact h.code2
      | exact h.code
      | exact h.codebkIndent
      | exact h.strong1
      | exact h.strong2
      | exact h.codebkTilde e
      | exact h.strikeout
      | exact h.lineBegin e
      | exact h.header

theorem SCInv.precharBlock {A E : Nat} (e : Nat) {s : MDScan} (h : SCInv A E s.sc) :
    SCInv A E (mdPrechar e s).sc := by
  unfold mdPrechar
  repeat' split
  all_goals
    first
      | exact h
      | exact h.setState _
      | exact h.hrule _
      | exact (h.hrule _).setState _

theorem SCInv.linkBlock {A E : Nat} {s : MDScan} (h : SCInv A E s.sc) :
    SCInv A E (mdLink s).sc := by
  unfold mdLink
  repeat' split
  all_goals
    first
      | exact h
      | exact h.forwardN _
      | exact (h.forwardN _).setState _
      | exact (h.forward).setState _

theorem SCInv.defaultBlock {A E : Nat} (e : Nat) {s : MDScan} (h : SCInv A E s.sc) :
    SCInv A E (mdDefaultRules e s).sc := by
  unfold mdDefaultRules
  repeat' split
  all_goals
    first
      | exact h
      | exact h.setState _
      | exact (h.setState _).forward

theorem SCInv.advance {A E : Nat} {s : MDScan} (h : SCInv A E s.sc) :
    SCInv A E (mdAdvance s).sc := by
  unfold mdAdvance
  repeat' split
  all_goals first | exact h | exact h.forward

theorem SCInv.step {A E : Nat} {s : MDScan} (h : SCInv A E s.sc) :
    SCInv A E (mdStep s).sc := by
  unfold mdStep mdRest
  repeat' split
  all_goals
    first
      | exact h.forward
      | exact ((((h.setState _).chain _).precharBlock _).linkBlock).defaultBlock _ |>.advance
      | exact (((h.chain _).precharBlock _).linkBlock).defaultBlock _ |>.advance

theorem SCInv.loop {A E : Nat} {s out : MDScan} {fuel : Nat} (h : SCInv A E s.sc)
    (hl : mdLoop fuel s = some out) : SCInv A E out.sc ∧ out.sc.More = false := by
  induction fuel generalizing s with
  | zero =>
    unfold mdLoop at hl
    split at hl
    · exact absurd hl (by simp)
    · cases hl; exact ⟨h, by simp_all⟩
  | succ f ih =>
    unfold mdLoop at hl
    split at hl
    · exact ih h.step hl
    · cases hl; exact ⟨h, by simp_all⟩

theorem ftle_state_ne_link {sc : StyleContext} (h : sc.state ≠ LINK)
    (c : Char) (st : MDStyle) (e : Nat) :
    (FollowToLineEnd c st e sc).2.state ≠ LINK := by
  rcases ftle_snd_state c st e sc with h1 | h1
  · rw [h1]; decide
  · rw [h1]; exact h

theorem hrule_state_ne_link (e : Nat) (sc : StyleContext) :
    (IsValidHrule e sc).2.state ≠ LINK := by
  rcases hrule_snd_state e sc with h1 | h1 <;> rw [h1] <;> decide

theorem code2Rule_ne_link {s : MDScan} (h : s.sc.state ≠ LINK) :
    (code2Rule s).sc.state ≠ LINK := by
  unfold code2Rule
  repeat' split
  all_goals first | exact h | (simp only [SetState_state, ForwardSetState_state, ForwardN_state, Forward_state]; decide)

theorem codeRule_ne_link {s : MDScan} (h : s.sc.state ≠ LINK) :
    (codeRule s).sc.state ≠ LINK := by
  unfold codeRule
  repeat' split
  all_goals first | exact h | (simp only [SetState_state, ForwardSetState_state, ForwardN_state, Forward_state]; decide)

theorem codebkIndentRule_ne_link {s : MDScan} (h : s.sc.state ≠ LINK) :
    (codebkIndentRule s).sc.state ≠ LINK := by
  unfold codebkIndentRule
  repeat' split
  all_goals first | exact h | (simp only [SetState_state, ForwardSetState_state, ForwardN_state, Forward_state]; decide)

theorem strong1Rule_ne_link {s : MDScan} (h : s.sc.state ≠ LINK) :
    (strong1Rule s).sc.state ≠ LINK := by
  unfold strong1Rule
  repeat' split
  all_goals first | exact h | (simp only [SetState_state, ForwardSetState_state, ForwardN_state, Forward_state]; decide)

theorem strong2Rule_ne_link {s : MDScan} (h : s.sc.state ≠ LINK) :
    (strong2Rule s).sc.state ≠ LINK := by
  unfold strong2Rule
  repeat' split
  all_goals first | exact h | (simp only [SetState_state, ForwardSetState_state, ForwardN_state, Forward_state]; decide)

theorem codebkTildeRule_ne_link (e : Nat) {s : MDScan} (h : s.sc.state ≠ LINK) :
    (codebkTildeRule e s).sc.state ≠ LINK := by
  unfold codebkTildeRule
  repeat' split
  all_goals first | exact h | (simp only [SetState_state, ForwardSetState_state, ForwardN_state, Forward_state]; decide)

theorem strikeoutRule_ne_link {s : MDScan} (h : s.sc.state ≠ LINK) :
    (strikeoutRule s).sc.state ≠ LINK := by
  unfold strikeoutRule
  repeat' split
  all_goals first | exact h | (simp only [SetState_state, ForwardSetState_state, ForwardN_state, Forward_state]; decide)

theorem lineBeginSetext_ne_link (e : Nat) {s : MDScan} (h : s.sc.state ≠ LINK) :
    (lineBeginSetext e s).sc.state ≠ LINK := by
  unfold lineBeginSetext
  repeat' split
  all_goals
    first
      | exact h
      | exact ftle_state_ne_link h _ _ _
      | (simp only [SetState_state, ForwardSetState_state, ForwardN_state, Forward_state]; decide)

theorem lineBeginRules_ne_link (e : Nat) {s : MDScan} (h : s.sc.state ≠ LINK) :
    (lineBeginRules e s).sc.state ≠ LINK := by
  unfold lineBeginRules
  repeat' split
  all_goals first | exact lineBeginSetext_ne_link e h | (simp only [SetState_state, ForwardSetState_state, ForwardN_state, Forward_state]; decide)

theorem headerRule_ne_link {s : MDScan} (h : s.sc.state ≠ LINK) :
    (headerRule s).sc.state ≠ LINK := by
  unfold headerRule
  repeat' split
  all_goals first | exact h | (simp only [SetState_state, ForwardSetState_state, ForwardN_state, Forward_state]; decide)

theorem mdChain_ne_link (e : Nat) {s : MDScan} (h : s.sc.state ≠ LINK) :
    (mdChain e s).sc.state ≠ LINK := by
  unfold mdChain
  repeat' split
  all_goals
    first
      | exact h
      | exact code2Rule_ne_link h
      | exact codeRule_ne_link h
      | exact codebkIndentRule_ne_link h
      | exact strong1Rule_ne_link h
      | exact strong2Rule_ne_link h
      | exact codebkTildeRule_ne_link e h
      | exact strikeoutRule_ne_link h
      | exact lineBeginRules_ne_link e h
      | exact headerRule_ne_link h

theorem mdPrechar_ne_link (e : Nat) {s : MDScan} (h : s.sc.state ≠ LINK) :
    (mdPrechar e s).sc.state ≠ LINK := by
  unfold mdPrechar
  repeat' split
  all_goals
    first
      | exact h
      | exact hrule_state_ne_link e s.sc
      | (rw [show ((IsValidHrule e s.sc).2.SetState DEFAULT).state = DEFAULT from SetState_state _ _]
         decide)
      | (simp only [SetState_state, ForwardSetState_state, ForwardN_state, Forward_state]; decide)

theorem mdLink_of_ne_link {s : MDScan} (h : s.sc.state ≠ LINK) : mdLink s = s := by
  unfold mdLink
  rw [if_neg h]

theorem mdDefaultRules_ne_link (e : Nat) {s : MDScan} (h : s.sc.state ≠ LINK) :
    (mdDefaultRules e s).sc.state ≠ LINK := by
  unfold mdDefaultRules
  repeat' split
  all_goals first | exact h | (simp only [SetState_state, ForwardSetState_state, ForwardN_state, Forward_state]; decide)

theorem mdAdvance_ne_link {s : MDScan} (h : s.sc.state ≠ LINK) :
    (mdAdvance s).sc.state ≠ LINK := by
  unfold mdAdvance
  repeat' split
  all_goals simpa using h

theorem mdRest_ne_link {s : MDScan} (h : s.sc.state ≠ LINK) :
    (mdRest s).sc.state ≠ LINK := by
  unfold mdRest
  have h3 := mdPrechar_ne_link s.sc.endPos (mdChain_ne_link s.sc.endPos h)
  rw [mdLink_of_ne_link h3]
  exact mdAdvance_ne_link (mdDefaultRules_ne_link _ h3)

theorem mdStep_ne_link {s : MDScan} (h : s.sc.state ≠ LINK) :
    (mdStep s).sc.state ≠ LINK := by
  unfold mdStep
  split
  · simpa using h
  · split
    · exact mdRest_ne_link (by simp)
    · exact mdRest_ne_link h

theorem lineStartAt_le (d : List Char) (p : Nat) : lineStartAt d p ≤ p := by
  induction p with
  | zero => exact le_refl _
  | succ n ih =>
    unfold lineStartAt
    split
    · exact le_refl _
    · exact le_trans ih (Nat.le_succ n)

theorem prevLineStart_le (d : List Char) (p : Nat) : prevLineStart d p ≤ p := by
  show (if lineStartAt d p = 0 then 0 else lineStartAt d (lineStartAt d p - 1)) ≤ p
  split
  · exact Nat.zero_le p
  · exact le_trans (lineStartAt_le d _)
      (le_trans (Nat.sub_le _ _) (lineStartAt_le d p))

theorem effStart_le (d : List Char) (p : Nat) : effStart d p ≤ p := by
  unfold effStart
  split
  · exact prevLineStart_le d p
  · exact le_refl p

/-- The initial scan state satisfies the structural invariant. -/
theorem mdInit_inv (doc : List Char) (startPos length : Nat) (initStyle : MDStyle)
    (stored : List MDStyle) :
    SCInv (effStart doc startPos) (startPos + length)
      (mdInit doc startPos length initStyle stored).sc := by
  refine ⟨?_, le_refl _, ?_, rfl⟩
  · show spanTilingB [] (effStart doc startPos) (effStart doc startPos) = true
    simp [spanTilingB]
  · show effStart doc startPos ≤ startPos + length
    exact le_trans (effStart_le doc startPos) (Nat.le_add_right _ _)

/-- At scan completion the whole effective range is tiled. -/
theorem SCInv.complete {A E : Nat} {sc : StyleContext} (h : SCInv A E sc)
    (hm : sc.More = false) : spanTilingB sc.Complete.spans A E = true := by
  obtain ⟨ht, hs, hc, he⟩ := h
  have hmore : ¬ sc.currentPos < sc.endPos := of_decide_eq_false hm
  have hce : sc.currentPos = sc.endPos := le_antisymm hc (Nat.le_of_not_lt hmore)
  have hE : sc.currentPos = E := hce.trans he
  unfold StyleContext.Complete
  split
  · exact hE ▸ spanTilingB_append sc.spans sc.state A sc.startSeg sc.currentPos ht (by assumption)
  · have hss : sc.startSeg = sc.currentPos := by omega
    exact (hss.trans hE) ▸ ht

theorem chAt_neg (d : List Char) (i : Int) (h : i < 0) : chAt d i = nulChar := by
  unfold chAt
  rw [if_neg]
  rintro ⟨h0, -⟩
  omega

theorem chAtAgree {d1 d2 : List Char} {pos : Nat}
    (h : ∀ p : Nat, p < pos → chAt d1 (p : Int) = chAt d2 (p : Int)) :
    ∀ i : Int, i < (pos : Int) → chAt d1 i = chAt d2 i := by
  intro i hi
  by_cases h0 : 0 ≤ i
  · lift i to Nat using h0
    exact h i (by exact_mod_cast hi)
  · rw [chAt_neg _ _ (by omega), chAt_neg _ _ (by omega)]

@[simp]
theorem SetState_ch (sc : StyleContext) (st : MDStyle) :
    (sc.SetState st).ch = sc.ch := by
  unfold StyleContext.ch
  rw [SetState_doc, SetState_currentPos]

@[simp]
theorem mdAdvance_state (s : MDScan) : (mdAdvance s).sc.state = s.sc.state := by
  unfold mdAdvance
  split
  · simp
  · rfl

theorem AtTermStart_backslash {sc : StyleContext} (h : sc.chPrev = '\\') :
    AtTermStart sc = false := by
  have hpos : sc.currentPos ≠ 0 := by
    intro h0
    rw [StyleContext.chPrev, h0] at h
    rw [show ((0 : Nat) : Int) - 1 = (-1 : Int) from by norm_num] at h
    rw [chAt_neg sc.doc _ (by norm_num)] at h
    exact absurd h (by decide)
  unfold AtTermStart
  rw [h, decide_eq_false hpos]
  decide

/-- The chain falls through for a `DEFAULT` classification. -/
theorem mdChain_default (e : Nat) {s : MDScan} (h : s.sc.state = DEFAULT) :
    mdChain e s = s := by
  unfold mdChain
  simp [h]

/-- The `PRECHAR` block is inert for other classifications. -/
theorem mdPrechar_of_ne (e : Nat) {s : MDScan} (h : s.sc.state ≠ PRECHAR) :
    mdPrechar e s = s := by
  unfold mdPrechar
  rw [if_neg h]

/-- The `DEFAULT` block is inert for other classifications. -/
theorem mdDefaultRules_of_ne (e : Nat) {s : MDScan} (h : s.sc.state ≠ DEFAULT) :
    mdDefaultRules e s = s := by
  unfold mdDefaultRules
  rw [if_neg h]

/-- Without a term-start boundary, the `DEFAULT` block can only keep
`DEFAULT` or re-open `LINE_BEGIN` — no inline marker rule fires. -/
theorem mdDefaultRules_no_term (e : Nat) {s : MDScan} (hst : s.sc.state = DEFAULT)
    (hat : AtTermStart s.sc = false) :
    (mdDefaultRules e s).sc.state = DEFAULT ∨
      (mdDefaultRules e s).sc.state = LINE_BEGIN := by
  unfold mdDefaultRules
  repeat' split
  all_goals simp_all

/-- A document with an inline code span crossing a re-lex split point. -/
def docSplitCode : List Char := [backquote, 'a', '\n', 'b']

/-- A marker-free three-line document. -/
def docPlain : List Char := ['a', '\n', 'b', '\n', 'c']

/-- A document with an escaped hash at a line start. -/
def docEscape : List Char := ['a', '\n', '\\', '#', ' ', 'b']

/-- The spec scenario input for blockquotes. -/
def docQuoteHeader : List Char := ['>', ' ', '#', ' ', 'H', '\n']

/-- A blockquote marker directly followed by a header hash, after a
leading newline so its line begins in `LINE_BEGIN`. -/
def docQuoteHeader2 : List Char := ['\n', '>', '#', ' ', 'H', '\n']

/-- A fenced code block opened and (per the spec) closed by `~~~` lines. -/
def docFence : List Char := ['\n', '~', '~', '~', '\n', '~', '~', '~', '\n', 'z']

/-- A triple-backquote code span whose closing fence follows a space. -/
def docCode2 : List Char :=
  [backquote, backquote, backquote, ' ', backquote, backquote, backquote, 'x']

/-- The spec scenario input for horizontal rules. -/
def docHrule : List Char := ['-', '-', '-', '\n']

/-- A horizontal-rule line preceded by an empty line. -/
def docHrule2 : List Char := ['\n', '-', '-', '-', '\n']

/-- C1: counterexample — splitting the scan of a document at offset 3
inside an open inline code span and resuming from the persisted styles
yields neither the same concatenated span stream nor the same final
per-position classifications as a single scan of the whole range. -/
theorem c1_counterexample :
    (splitSpans docSplitCode 3).1 ++ (splitSpans docSplitCode 3).2 ≠
        scanSpans docSplitCode ∧
      splitStyles docSplitCode 3 ≠ scanStyles docSplitCode := by decide

/-- C1 (amended): idempotence under re-lex does not hold for every
document and split; for a marker-free document such as `"a\nb\nc"` the
persisted per-position classifications after a two-call split scan agree
with the single whole-range scan at every split offset. -/
theorem c1_relex_amended :
    ∀ k : Nat, k < 5 → splitStyles docPlain k = scanStyles docPlain := by decide

theorem c1_relex_amended_witness :
    2 < 5 ∧ splitStyles docPlain 2 = scanStyles docPlain :=
  ⟨by decide, c1_relex_amended 2 (by decide)⟩

/-- C2: counterexample — in `"a\n\\# b"` the backslash at offset 2 is
followed by a `#` whose emitted classification is `HEADER1`, not the
`LINE_BEGIN` classification in effect before the backslash: the escaped
character still triggered the header marker rule. -/
theorem c2_counterexample :
    chAt docEscape 2 = '\\' ∧
      (scanStyles docEscape).getD 2 DEFAULT = LINE_BEGIN ∧
      (scanStyles docEscape).getD 3 DEFAULT = HEADER1 ∧
      HEADER1 ≠ LINE_BEGIN := by decide

/-- C2 (amended): the escape rule bypasses every rule at the backslash
itself (the iteration only advances the cursor), and at the following
character the backslash as preceding character defeats every
`AtTermStart`-guarded inline opener, so from `DEFAULT` the escaped
character can only stay `DEFAULT` or re-open `LINE_BEGIN`; rules of other
classifications (line-begin rules, close rules) still see the escaped
character. -/
theorem c2_escape_amended :
    (∀ s : MDScan, s.sc.ch = '\\' → mdStep s = { s with sc := s.sc.Forward }) ∧
    (∀ s : MDScan, s.sc.state = DEFAULT → s.sc.chPrev = '\\' →
      (mdStep s).sc.state = DEFAULT ∨ (mdStep s).sc.state = LINE_BEGIN) := by
  constructor
  · intro s h
    unfold mdStep
    rw [if_pos h]
  · intro s hst hPrev
    unfold mdStep
    split
    · left
      show (s.sc.Forward).state = DEFAULT
      rw [Forward_state]; exact hst
    · rw [if_neg (show ¬ s.sc.state = BLOCKQUOTE by rw [hst]; decide)]
      unfold mdRest
      rw [mdChain_default _ hst, mdPrechar_of_ne _ (by rw [hst]; decide),
        mdLink_of_ne_link (by rw [hst]; decide)]
      rcases mdDefaultRules_no_term s.sc.endPos hst (AtTermStart_backslash hPrev)
        with h1 | h1
      · left; rw [mdAdvance_state]; exact h1
      · right; rw [mdAdvance_state]; exact h1

/-- A scan state sitting on an escaped character: document `"\\#"`,
cursor at the `#`, classification `DEFAULT`. -/
def wC2 : MDScan :=
  { sc := { doc := ['\\', '#'], endPos := 2, currentPos := 1, state := DEFAULT,
            startSeg := 0, spans := [] },
    precharCount := 0, isLinkNameDetecting := false, freezeCursor := false }

theorem c2_escape_amended_witness :
    (wC2.sc.state = DEFAULT ∧ wC2.sc.chPrev = '\\') ∧
      ((mdStep wC2).sc.state = DEFAULT ∨ (mdStep wC2).sc.state = LINE_BEGIN) :=
  ⟨⟨by decide, by decide⟩, c2_escape_amended.2 wC2 (by decide) (by decide)⟩

/-- C3: counterexample — for the input `"> # H\n"` as a whole document the
scan starts in `DEFAULT` (not `LINE_BEGIN`), so the `>` never reaches the
blockquote rule and `"# H"` stays `DEFAULT` instead of `HEADER1`. -/
theorem c3_counterexample :
    (scanStyles docQuoteHeader).getD 0 DEFAULT = DEFAULT ∧
      (scanStyles docQuoteHeader).getD 2 DEFAULT = DEFAULT ∧
      DEFAULT ≠ HEADER1 ∧ DEFAULT ≠ BLOCKQUOTE := by decide

/-- C3 (amended): the blockquote re-entry mechanism is as claimed — a
`BLOCKQUOTE` classification at the top of an iteration is replaced by
`LINE_BEGIN` before any other rule, so the step behaves exactly as if the
classification had already been reset; the scenario holds in a line that
begins in `LINE_BEGIN` with the header hash directly after the marker:
in `"\n>"` plus `"# H\n"` the `>` is `BLOCKQUOTE` and `"# H"` is
`HEADER1`, whereas `"> # H\n"` at document start stays `DEFAULT`. -/
theorem c3_blockquote_amended :
    (∀ s : MDScan, s.sc.state = BLOCKQUOTE → s.sc.ch ≠ '\\' →
      mdStep s = mdStep { s with sc := s.sc.SetState LINE_BEGIN }) ∧
    ((scanStyles docQuoteHeader2).getD 1 DEFAULT = BLOCKQUOTE ∧
      (scanStyles docQuoteHeader2).getD 2 DEFAULT = HEADER1 ∧
      (scanStyles docQuoteHeader2).getD 4 DEFAULT = HEADER1) := by
  constructor
  · intro s hbq hch
    unfold mdStep
    rw [if_neg hch, if_pos hbq,
      if_neg (show ¬ (s.sc.SetState LINE_BEGIN).ch = '\\' by
        rw [SetState_ch]; exact hch),
      if_neg (show ¬ (s.sc.SetState LINE_BEGIN).state = BLOCKQUOTE by
        rw [SetState_state]; decide)]
  · exact ⟨by decide, by decide, by decide⟩

/-- A scan state with an open `BLOCKQUOTE` classification. -/
def wC3 : MDScan :=
  { sc := { doc := ['\n', '>', '#'], endPos := 3, currentPos := 2, state := BLOCKQUOTE,
            startSeg := 1, spans := [] },
    precharCount := 0, isLinkNameDetecting := false, freezeCursor := false }

theorem c3_blockquote_amended_witness :
    (wC3.sc.state = BLOCKQUOTE ∧ wC3.sc.ch ≠ '\\') ∧
      mdStep wC3 = mdStep { wC3 with sc := wC3.sc.SetState LINE_BEGIN } :=
  ⟨⟨by decide, by decide⟩, c3_blockquote_amended.1 wC3 (by decide) (by decide)⟩

/-- The chain dispatches a `CODEBK` classification to the first (indent)
`CODEBK` rule — the later `~~~` rule of the source chain is unreachable. -/
theorem mdChain_codebk (e : Nat) {s : MDScan} (h : s.sc.state = CODEBK) :
    mdChain e s = codebkIndentRule s := by
  unfold mdChain
  simp [h]

/-- The chain dispatches a `CODE2` classification to its close rule. -/
theorem mdChain_code2 (e : Nat) {s : MDScan} (h : s.sc.state = CODE2) :
    mdChain e s = code2Rule s := by
  unfold mdChain
  simp [h]

/-- The chain dispatches a `CODE` classification to its close rule. -/
theorem mdChain_code (e : Nat) {s : MDScan} (h : s.sc.state = CODE) :
    mdChain e s = codeRule s := by
  unfold mdChain
  simp [h]

/-- C4: counterexample — in `"\n~~~\n~~~\nz"` the second `~~~` line does
not close the fenced block by scanning to its end and reopening `DEFAULT`
(which would leave its characters classified `CODEBK`): the four-space
rule closes the block at the first fence character, which carries
`LINE_BEGIN`, and the rest of the fence line falls to `DEFAULT`. -/
theorem c4_counterexample :
    (scanStyles docFence).getD 4 DEFAULT = CODEBK ∧
      (scanStyles docFence).getD 5 DEFAULT = LINE_BEGIN ∧
      (scanStyles docFence).getD 6 DEFAULT = DEFAULT ∧
      LINE_BEGIN ≠ CODEBK ∧ DEFAULT ≠ CODEBK := by decide

/-- C4 (amended): a `CODEBK` classification always takes the first
(indent) rule of the chain — the tilde-fence close branch is dead code:
at a line start whose character is not a tab and whose first four
characters are not all spaces the block closes back to `LINE_BEGIN`
(also on `~~~` lines); otherwise the classification stays `CODEBK`. -/
theorem c4_codebk_amended :
    (∀ e : Nat, ∀ s : MDScan, s.sc.state = CODEBK →
      s.sc.atLineStart = true → s.sc.ch ≠ '\t' →
      ¬(s.sc.GetRelative 0 = ' ' ∧ s.sc.GetRelative 1 = ' ' ∧
        s.sc.GetRelative 2 = ' ' ∧ s.sc.GetRelative 3 = ' ') →
      (mdChain e s).sc.state = LINE_BEGIN) ∧
    (∀ e : Nat, ∀ s : MDScan, s.sc.state = CODEBK →
      (s.sc.atLineStart = false ∨ s.sc.ch = '\t' ∨
        (s.sc.GetRelative 0 = ' ' ∧ s.sc.GetRelative 1 = ' ' ∧
         s.sc.GetRelative 2 = ' ' ∧ s.sc.GetRelative 3 = ' ')) →
      (mdChain e s).sc.state = CODEBK) := by
  constructor
  · intro e s hst hA hT h4
    rw [mdChain_codebk e hst]
    unfold codebkIndentRule
    have hinner : (if s.sc.atLineStart = true ∧ s.sc.ch ≠ '\t' then
        (s.sc.GetRelative 0 == ' ' && s.sc.GetRelative 1 == ' ' &&
         s.sc.GetRelative 2 == ' ' && s.sc.GetRelative 3 == ' ')
      else true) =
        (s.sc.GetRelative 0 == ' ' && s.sc.GetRelative 1 == ' ' &&
         s.sc.GetRelative 2 == ' ' && s.sc.GetRelative 3 == ' ') := if_pos ⟨hA, hT⟩
    have hb : (s.sc.GetRelative 0 == ' ' && s.sc.GetRelative 1 == ' ' &&
        s.sc.GetRelative 2 == ' ' && s.sc.GetRelative 3 == ' ') = false := by
      cases hcc : (s.sc.GetRelative 0 == ' ' && s.sc.GetRelative 1 == ' ' &&
          s.sc.GetRelative 2 == ' ' && s.sc.GetRelative 3 == ' ') with
      | false => rfl
      | true =>
        exfalso
        simp only [Bool.and_eq_true, beq_iff_eq] at hcc
        exact h4 ⟨hcc.1.1.1, hcc.1.1.2, hcc.1.2, hcc.2⟩
    rw [hinner, hb, if_pos (by decide : (!false) = true)]
    simp
  · intro e s hst hkeep
    rw [mdChain_codebk e hst]
    unfold codebkIndentRule
    have harg : (if s.sc.atLineStart = true ∧ s.sc.ch ≠ '\t' then
        (s.sc.GetRelative 0 == ' ' && s.sc.GetRelative 1 == ' ' &&
         s.sc.GetRelative 2 == ' ' && s.sc.GetRelative 3 == ' ')
      else true) = true := by
      split
      · rename_i hcond
        rcases hkeep with h1 | h1 | h1
        · exact absurd hcond.1 (by simp [h1])
        · exact absurd h1 hcond.2
        · simp only [h1.1, h1.2.1, h1.2.2.1, h1.2.2.2]
          decide
      · rfl
    rw [harg, if_neg (by decide : ¬ ((!true) = true))]
    exact hst

/-- A scan state in `CODEBK` at the line start of a `~~~` fence line. -/
def wC4 : MDScan :=
  { sc := { doc := ['\n', '~', '~', '~', '\n'], endPos := 5, currentPos := 1,
            state := CODEBK, startSeg := 0, spans := [] },
    precharCount := 0, isLinkNameDetecting := false, freezeCursor := false }

theorem c4_codebk_amended_witness :
    (wC4.sc.state = CODEBK ∧ wC4.sc.atLineStart = true ∧ wC4.sc.ch ≠ '\t' ∧
      ¬(wC4.sc.GetRelative 0 = ' ' ∧ wC4.sc.GetRelative 1 = ' ' ∧
        wC4.sc.GetRelative 2 = ' ' ∧ wC4.sc.GetRelative 3 = ' ')) ∧
      (mdChain 5 wC4).sc.state = LINE_BEGIN :=
  ⟨⟨by decide, by decide, by decide, by decide⟩,
    c4_codebk_amended.1 5 wC4 (by decide) (by decide) (by decide) (by decide)⟩

/-- C5: counterexample — in a document where the closing triple backquote
is preceded by a space, the `CODE2` span still closes there: the final
`x` is classified `DEFAULT`, not `CODE2` as the space guard of the claim
would require. -/
theorem c5_counterexample :
    chAt docCode2 3 = ' ' ∧
      (scanStyles docCode2).getD 6 DEFAULT = CODE2 ∧
      (scanStyles docCode2).getD 7 DEFAULT = DEFAULT ∧
      DEFAULT ≠ CODE2 := by decide

/-- C5 (amended): `CODE` closes exactly on a backquote whose preceding
character is not a space (a space blocks the close); `CODE2` closes on a
triple backquote regardless of the preceding character — the space guard
applies only to the single-backquote span, and escapes do not prevent
either close. -/
theorem c5_code_close_amended :
    (∀ e : Nat, ∀ s : MDScan, s.sc.state = CODE2 → s.sc.Match fence3 = true →
      mdChain e s = { s with sc := (s.sc.ForwardN 3).SetState DEFAULT }) ∧
    (∀ e : Nat, ∀ s : MDScan, s.sc.state = CODE → s.sc.ch = backquote →
      s.sc.chPrev = ' ' → mdChain e s = s) ∧
    (∀ e : Nat, ∀ s : MDScan, s.sc.state = CODE → s.sc.ch = backquote →
      s.sc.chPrev ≠ ' ' →
      mdChain e s = { s with sc := s.sc.ForwardSetState DEFAULT }) := by
  refine ⟨?_, ?_, ?_⟩
  · intro e s hst hm
    rw [mdChain_code2 e hst]
    unfold code2Rule
    rw [if_pos hm]
  · intro e s hst hbq hsp
    rw [mdChain_code e hst]
    unfold codeRule
    rw [if_neg]
    rintro ⟨-, hne⟩
    exact hne hsp
  · intro e s hst hbq hsp
    rw [mdChain_code e hst]
    unfold codeRule
    rw [if_pos ⟨hbq, hsp⟩]

/-- A scan state in `CODE2` at a closing fence preceded by a space. -/
def wC5 : MDScan :=
  { sc := { doc := docCode2, endPos := 8, currentPos := 4, state := CODE2,
            startSeg := 0, spans := [] },
    precharCount := 0, isLinkNameDetecting := false, freezeCursor := false }

theorem c5_code_close_amended_witness :
    (wC5.sc.state = CODE2 ∧ wC5.sc.Match fence3 = true ∧ wC5.sc.chPrev = ' ') ∧
      mdChain 8 wC5 = { wC5 with sc := (wC5.sc.ForwardN 3).SetState DEFAULT } :=
  ⟨⟨by decide, by decide, by decide⟩,
    c5_code_close_amended.1 8 wC5 (by decide) (by decide)⟩

theorem backToPrevNewline_le (d : List Char) (pos : Nat) :
    ∀ (f : Nat) (i : Int), backToPrevNewline d pos f i ≤ i - 1 := by
  intro f
  induction f with
  | zero => intro i; exact le_refl _
  | succ g ih =>
    intro i
    unfold backToPrevNewline
    split
    · exact le_trans (ih (i - 1)) (by omega)
    · exact le_refl _

theorem backToPrevNewline_ext {d1 d2 : List Char} {pos : Nat}
    (h : ∀ p : Nat, p < pos → chAt d1 (p : Int) = chAt d2 (p : Int)) :
    ∀ (f : Nat) (i : Int), i ≤ 0 →
      backToPrevNewline d1 pos f i = backToPrevNewline d2 pos f i := by
  intro f
  induction f with
  | zero => intro i _; rfl
  | succ g ih =>
    intro i hi
    unfold backToPrevNewline
    rw [chAtAgree h ((pos : Int) + (i - 1)) (by omega)]
    split
    · exact ih (i - 1) (by omega)
    · rfl

theorem hplcScan_ext {d1 d2 : List Char} {pos : Nat}
    (h : ∀ p : Nat, p < pos → chAt d1 (p : Int) = chAt d2 (p : Int)) :
    ∀ (f : Nat) (i : Int), i ≤ 0 →
      hplcScan d1 pos f i = hplcScan d2 pos f i := by
  intro f
  induction f with
  | zero => intro i _; rfl
  | succ g ih =>
    intro i hi
    unfold hplcScan
    rw [chAtAgree h ((pos : Int) + (i - 1)) (by omega)]
    split
    · split
      · rfl
      · split
        · rfl
        · exact ih (i - 1) (by omega)
    · rfl

/-- `HasPrevLineContent` reads only strictly below the cursor position:
its value is unchanged between documents that agree below it. -/
theorem hasPrevLineContentAt_ext {d1 d2 : List Char} {pos : Nat}
    (h : ∀ p : Nat, p < pos → chAt d1 (p : Int) = chAt d2 (p : Int)) :
    hasPrevLineContentAt d1 pos = hasPrevLineContentAt d2 pos := by
  unfold hasPrevLineContentAt
  have hb := backToPrevNewline_ext h (pos + 2) 0 (le_refl 0)
  have hle : backToPrevNewline d1 pos (pos + 2) 0 ≤ -1 :=
    le_trans (backToPrevNewline_le d1 pos (pos + 2) 0) (by omega)
  rw [hb,
    chAtAgree h ((pos : Int) + (backToPrevNewline d2 pos (pos + 2) 0 - 1))
      (by have := hb ▸ hle; omega),
    chAtAgree h ((pos : Int) + backToPrevNewline d2 pos (pos + 2) 0)
      (by have := hb ▸ hle; omega)]
  split
  · exact hplcScan_ext h (pos + 2) _ (by have := hb ▸ hle; omega)
  · exact hplcScan_ext h (pos + 2) _ (by have := hb ▸ hle; omega)

/-- `IsPrevLineEmpty` reads only strictly below the cursor position. -/
theorem isPrevLineEmptyAt_ext {d1 d2 : List Char} {pos : Nat}
    (h : ∀ p : Nat, p < pos → chAt d1 (p : Int) = chAt d2 (p : Int)) :
    isPrevLineEmptyAt d1 pos = isPrevLineEmptyAt d2 pos := by
  have hb := backToPrevNewline_ext h (pos + 2) 0 (le_refl 0)
  have hle : backToPrevNewline d1 pos (pos + 2) 0 ≤ -1 :=
    le_trans (backToPrevNewline_le d1 pos (pos + 2) 0) (by omega)
  have hadj : ipleAdj d1 pos = ipleAdj d2 pos := by
    unfold ipleAdj
    rw [hb,
      chAtAgree h ((pos : Int) + (backToPrevNewline d2 pos (pos + 2) 0 - 1))
        (by have := hb ▸ hle; omega),
      chAtAgree h ((pos : Int) + backToPrevNewline d2 pos (pos + 2) 0)
        (by have := hb ▸ hle; omega)]
  have hadjle : ipleAdj d1 pos ≤ -1 := by
    unfold ipleAdj
    split
    · omega
    · split
      · omega
      · exact hle
  unfold isPrevLineEmptyAt
  rw [← hadj, chAtAgree h ((pos : Int) + ipleAdj d1 pos) (by omega)]

/-- Two cursors over documents that agree strictly below the shared end
offset (here 1), with the same position, on which `FollowToLineEnd`
answers differently — its marker-run loop read at and past the end
offset decided the result. -/
def c6sc1 : StyleContext :=
  { doc := ['=', '='], endPos := 1, currentPos := 0, state := LINE_BEGIN,
    startSeg := 0, spans := [] }

/-- The partner cursor of `c6sc1`, differing only at offset 1. -/
def c6sc2 : StyleContext :=
  { doc := ['=', 'x'], endPos := 1, currentPos := 0, state := LINE_BEGIN,
    startSeg := 0, spans := [] }

/-- C6: counterexample — `FollowToLineEnd` reads at and past the supplied
end offset: on two documents identical at every offset below `endPos = 1`
(and identical cursor state) it returns different results, which is
impossible for a predicate reading only below the end offset. -/
theorem c6_counterexample :
    (∀ p : Nat, p < 1 → chAt c6sc1.doc (p : Int) = chAt c6sc2.doc (p : Int)) ∧
      c6sc1.currentPos = c6sc2.currentPos ∧
      c6sc1.endPos = 1 ∧ c6sc2.endPos = 1 ∧
      (FollowToLineEnd '=' HEADER1 1 c6sc1).1 ≠
        (FollowToLineEnd '=' HEADER1 1 c6sc2).1 := by decide

/-- C6 (amended): the backward-scanning predicates `HasPrevLineContent`
and `IsPrevLineEmpty` read only strictly below the cursor position (their
results agree on documents that agree there); the forward-scanning
predicates may read at or past the caller-supplied end offset, bounded
only by the document through the NUL-padded safe accessor. -/
theorem c6_backward_amended :
    ∀ (sc1 sc2 : StyleContext), sc1.currentPos = sc2.currentPos →
      (∀ p : Nat, p < sc2.currentPos → chAt sc1.doc (p : Int) = chAt sc2.doc (p : Int)) →
      HasPrevLineContent sc1 = HasPrevLineContent sc2 ∧
        IsPrevLineEmpty sc1 = IsPrevLineEmpty sc2 := by
  intro sc1 sc2 hpos h
  unfold HasPrevLineContent IsPrevLineEmpty
  rw [hpos]
  exact ⟨hasPrevLineContentAt_ext h, isPrevLineEmptyAt_ext h⟩

/-- A cursor pair for the backward predicates: documents differing only
at the cursor position itself. -/
def c6sc3 : StyleContext :=
  { doc := ['a', '\n', 'x'], endPos := 3, currentPos := 2, state := DEFAULT,
    startSeg := 0, spans := [] }

/-- The partner cursor of `c6sc3`. -/
def c6sc4 : StyleContext :=
  { doc := ['a', '\n', 'y'], endPos := 3, currentPos := 2, state := DEFAULT,
    startSeg := 0, spans := [] }

theorem c6_backward_amended_witness :
    (c6sc3.currentPos = c6sc4.currentPos ∧
      (∀ p : Nat, p < c6sc4.currentPos →
        chAt c6sc3.doc (p : Int) = chAt c6sc4.doc (p : Int))) ∧
      (HasPrevLineContent c6sc3 = HasPrevLineContent c6sc4 ∧
        IsPrevLineEmpty c6sc3 = IsPrevLineEmpty c6sc4) :=
  ⟨⟨by decide, by decide⟩,
    c6_backward_amended c6sc3 c6sc4 (by decide) (by decide)⟩

/-- C7: for every scan call that completes, the emitted style spans are
consecutive, non-empty and non-overlapping, and tile exactly the
effective range — the requested `[startPos, startPos + length)` extended
backward to the previous physical line start. -/
theorem c7_coverage (fuel : Nat) (doc : List Char) (startPos length : Nat)
    (initStyle : MDStyle) (stored : List MDStyle) (out : StyleContext)
    (h : ColorizeMarkdownDoc fuel doc startPos length initStyle stored = some out) :
    spanTilingB out.spans (effStart doc startPos) (startPos + length) = true := by
  unfold ColorizeMarkdownDoc at h
  obtain ⟨sfin, hloop, hout⟩ := Option.map_eq_some'.mp h
  obtain ⟨hinv, hm⟩ := (mdInit_inv doc startPos length initStyle stored).loop hloop
  rw [← hout]
  exact hinv.complete hm

theorem c7_coverage_witness :
    ∃ out, ColorizeMarkdownDoc 28 docPlain 0 5 DEFAULT (List.replicate 5 DEFAULT) =
        some out ∧
      spanTilingB out.spans (effStart docPlain 0) 5 = true := by
  rcases hq : ColorizeMarkdownDoc 28 docPlain 0 5 DEFAULT (List.replicate 5 DEFAULT)
    with _ | out
  · exact absurd hq (by decide)
  · exact ⟨out, rfl, c7_coverage 28 docPlain 0 5 DEFAULT _ out hq⟩

/-- A `PRECHAR` cursor on `"----"` scanned with end offset 3: three
marker characters lie below the end offset and the previous line is
absent, yet the predicate fails (its run loop walks through the marker at
the end offset and then misses the exact-equality stop test). -/
def c8run : StyleContext :=
  { doc := ['-', '-', '-', '-'], endPos := 3, currentPos := 0, state := PRECHAR,
    startSeg := 0, spans := [] }

/-- C8: counterexample — the scenario fails: `"---\n"` as the very first
line of a document is classified `DEFAULT`, not `HRULE` (document start
begins in `DEFAULT`, which never reaches the `PRECHAR` rules); and the
success condition is not the stated iff: on `c8run` a run of three
markers with no interleaved characters reaches the end offset with no
previous-line content, yet `IsValidHrule` reports failure. -/
theorem c8_counterexample :
    ((scanStyles docHrule).getD 0 DEFAULT = DEFAULT ∧ DEFAULT ≠ HRULE) ∧
      (chAt c8run.doc 0 = '-' ∧ chAt c8run.doc 1 = '-' ∧ chAt c8run.doc 2 = '-' ∧
        c8run.endPos = 3 ∧ hasPrevLineContentAt c8run.doc 0 = false ∧
        (IsValidHrule 3 c8run).1 = false) := by decide

/-- C8 (amended): on success `IsValidHrule` closes an `HRULE` span over
the consumed run and leaves the scan in `LINE_BEGIN`; on failure it opens
`DEFAULT` without moving the cursor; a `---` line reached from
`LINE_BEGIN` context (as in `"\n---\n"`) is classified `HRULE`, whereas
`"---\n"` as the very first line of a document stays `DEFAULT`. -/
theorem c8_hrule_amended :
    (∀ (e : Nat) (sc : StyleContext), (IsValidHrule e sc).1 = true →
      (IsValidHrule e sc).2.state = LINE_BEGIN) ∧
    (∀ (e : Nat) (sc : StyleContext), (IsValidHrule e sc).1 = false →
      (IsValidHrule e sc).2.state = DEFAULT ∧
        (IsValidHrule e sc).2.currentPos = sc.currentPos) ∧
    ((scanStyles docHrule2).getD 1 DEFAULT = HRULE ∧
      (scanStyles docHrule2).getD 2 DEFAULT = HRULE ∧
      (scanStyles docHrule2).getD 3 DEFAULT = HRULE ∧
      (scanStyles docHrule).getD 0 DEFAULT = DEFAULT) := by
  refine ⟨?_, ?_, by decide, by decide, by decide, by decide⟩
  · exact hrule_succ
  · intro e sc h
    rw [hrule_fail e sc h]
    exact ⟨SetState_state _ _, SetState_currentPos _ _⟩

/-- A `PRECHAR` cursor at the start of `"---\n"` scanned in full. -/
def wC8 : StyleContext :=
  { doc := docHrule, endPos := 4, currentPos := 0, state := PRECHAR,
    startSeg := 0, spans := [] }

theorem c8_hrule_amended_witness :
    (IsValidHrule 4 wC8).1 = true ∧ (IsValidHrule 4 wC8).2.state = LINE_BEGIN :=
  ⟨by decide, c8_hrule_amended.1 4 wC8 (by decide)⟩

/-- The loop-freezing document of the divergence bug: a line with
content, then a `~~~` line underlined by `=`. -/
def docFreeze : List Char := ['a', '\n', '~', '~', '~', '\n', '=', '\n']

/-- The initial scan state of the full scan of `docFreeze`. -/
def c9init : MDScan := mdInit docFreeze 0 8 DEFAULT (List.replicate 8 DEFAULT)

/-- The scan state after one iteration on `docFreeze`. -/
def c9s1 : MDScan :=
  { sc := { doc := docFreeze, endPos := 8, currentPos := 1, state := DEFAULT,
            startSeg := 0, spans := [] },
    precharCount := 0, isLinkNameDetecting := false, freezeCursor := false }

/-- The scan state after two iterations on `docFreeze`. -/
def c9s2 : MDScan :=
  { sc := { doc := docFreeze, endPos := 8, currentPos := 2, state := LINE_BEGIN,
            startSeg := 1, spans := [(0, 1, DEFAULT)] },
    precharCount := 0, isLinkNameDetecting := false, freezeCursor := false }

/-- The scan state after three iterations on `docFreeze`: position 2 in
`LINE_BEGIN` — a fixed point of the dispatch step with `More()` true. -/
def c9s3 : MDScan :=
  { sc := { doc := docFreeze, endPos := 8, currentPos := 2, state := LINE_BEGIN,
            startSeg := 2, spans := [(0, 1, DEFAULT), (1, 2, LINE_BEGIN)] },
    precharCount := 0, isLinkNameDetecting := false, freezeCursor := false }

theorem mdLoop_succ_of_more (f : Nat) (s : MDScan) (h : s.sc.More = true) :
    mdLoop (f + 1) s = mdLoop f (mdStep s) := by
  simp only [mdLoop]
  rw [if_pos h]

theorem mdLoop_none_of_fix {c : MDScan} (h1 : mdStep c = c) (h2 : c.sc.More = true) :
    ∀ f : Nat, mdLoop f c = none := by
  intro f
  induction f with
  | zero => simp [mdLoop, h2]
  | succ g ih =>
    rw [mdLoop_succ_of_more g c h2, h1]
    exact ih

/-- C9: the main dispatch loop does not terminate on every document —
on `"a\n~~~\n=\n"` the scan re-dispatches forever at position 2,
alternating between `LINE_BEGIN` (whose `~~~` rule falls back to
`DEFAULT` because the previous line has content) and the `DEFAULT`
block's no-advance underlined-header re-dispatch, so no amount of fuel
completes the call. -/
theorem c9_divergence : ∀ fuel : Nat,
    ColorizeMarkdownDoc fuel docFreeze 0 8 DEFAULT (List.replicate 8 DEFAULT) =
      none := by
  have h0 : c9init.sc.More = true := by decide
  have h1 : mdStep c9init = c9s1 := by decide
  have h1m : c9s1.sc.More = true := by decide
  have h2 : mdStep c9s1 = c9s2 := by decide
  have h2m : c9s2.sc.More = true := by decide
  have h3 : mdStep c9s2 = c9s3 := by decide
  have hfix : mdStep c9s3 = c9s3 := by decide
  have hmore : c9s3.sc.More = true := by decide
  have hshift : ∀ n : Nat, mdLoop (n + 3) c9init = mdLoop n c9s3 := by
    intro n
    show mdLoop (n + 2 + 1) c9init = mdLoop n c9s3
    rw [mdLoop_succ_of_more _ _ h0, h1]
    show mdLoop (n + 1 + 1) c9s1 = mdLoop n c9s3
    rw [mdLoop_succ_of_more _ _ h1m, h2]
    show mdLoop (n + 0 + 1) c9s2 = mdLoop n c9s3
    rw [mdLoop_succ_of_more _ _ h2m, h3]
  intro fuel
  unfold ColorizeMarkdownDoc
  rw [Option.map_eq_none']
  show mdLoop fuel c9init = none
  rcases Nat.lt_or_ge fuel 3 with hf | hf
  · interval_cases fuel
    · decide
    · rw [mdLoop_succ_of_more _ _ h0, h1]; decide
    · rw [mdLoop_succ_of_more _ _ h0, h1, mdLoop_succ_of_more _ _ h1m, h2]; decide
  · obtain ⟨n, rfl⟩ : ∃ n, fuel = n + 3 := ⟨fuel - 3, by omega⟩
    rw [hshift n]
    exact mdLoop_none_of_fix hfix hmore n

/-- The initial classification of a call is never `LINK`: the style-leak
reset maps every stored style ordinally above `CODEBK` to `DEFAULT`. -/
theorem mdInit_ne_link (doc : List Char) (sp len : Nat) (ist : MDStyle)
    (st : List MDStyle) : (mdInit doc sp len ist st).sc.state ≠ LINK := by
  show (if styleOrd CODEBK <
          styleOrd (if sp > 0 then st.getD (effStart doc sp) DEFAULT else ist)
        then DEFAULT
        else (if sp > 0 then st.getD (effStart doc sp) DEFAULT else ist)) ≠ LINK
  generalize (if sp > 0 then st.getD (effStart doc sp) DEFAULT else ist) = x
  cases x <;> decide

/-- C10: `LINK` is unreachable — in every scan call, after the resume
reset, the classification at the start of each loop iteration is never
`LINK`: the reset never yields it and no executable transition of the
dispatch step produces it, so the `LINK` rules are dead code. -/
theorem c10_link_unreachable :
    ∀ (doc : List Char) (startPos length : Nat) (initStyle : MDStyle)
      (stored : List MDStyle) (n : Nat),
      (mdStep^[n] (mdInit doc startPos length initStyle stored)).sc.state ≠ LINK := by
  intro doc sp len ist st n
  induction n with
  | zero => simpa using mdInit_ne_link doc sp len ist st
  | succ k ih =>
    rw [Function.iterate_succ_apply']
    exact mdStep_ne_link ih
